import Mathlib

/-!
# Verification of the pairinteraction System core

A shallow embedding of the pairinteraction repository's System layer.  The
parts present in the repository (`SystemBase.cpp`: the `createStateFromLabel`
template specializations) are translated directly from the source; the
components whose implementation lives outside the repository snapshot (cache,
basis builder, operator assembler, diagonalizer, rotation/overlap module) are
modelled from the specification, each such definition carrying a doc comment
that says so.
-/

/-- Modelled from the spec: the external `StateOne` label constructor (state
resolution from a human-readable label happens in an external collaborator,
absent from the sources).  It is represented by the label it receives. -/
structure StateOne where
  label : String
deriving DecidableEq

/-- Modelled from the spec: the external `StateTwo` constructor taking an
array of two per-atom string labels (the resolution of each label into a
single-atom state is external).  It is represented by the two labels it
receives, which seed the symmetric single-atom state pair. -/
structure StateTwo where
  labelA : String
  labelB : String
deriving DecidableEq

/-- `SystemBase<StateOne>::createStateFromLabel` from
`src/libpairinteraction/SystemBase.cpp`: `return StateOne(label);`. -/
def createStateFromLabelOne (label : String) : StateOne :=
  StateOne.mk label

/-- `SystemBase<StateTwo>::createStateFromLabel` from
`src/libpairinteraction/SystemBase.cpp`:
`return StateTwo({{"0_" + label, "1_" + label}});`. -/
def createStateFromLabelTwo (label : String) : StateTwo :=
  StateTwo.mk ("0_" ++ label) ("1_" ++ label)

/-- C9: for every string label `s`, `createStateFromLabel` on the single-atom
System passes the label `s` unchanged to the external label resolution: the
result is exactly the state constructed directly from `s`. -/
theorem createStateFromLabelOne_passes_label_unchanged (s : String) :
    createStateFromLabelOne s = StateOne.mk s := rfl

/-- C1 counterexample: at the concrete label `"x"` the pair state built by
`createStateFromLabel` is not seeded by 1-based labels: its component labels
are `"0_x"` and `"1_x"`, not `"1_x"` and `"2_x"` as 1-based atom indices would
give. -/
theorem createStateFromLabelTwo_not_oneBased :
    ¬ createStateFromLabelTwo "x" = StateTwo.mk ("1_" ++ "x") ("2_" ++ "x") := by
  decide

/-- C1 (amended): for every string label `s`, constructing a pair state from
the single label `s` returns a `StateTwo` seeded by two string labels derived
from `s` that carry 0-based atom indices (prefixes `"0_"` and `"1_"`) and seed
the symmetric single-atom state pair. -/
theorem createStateFromLabelTwo_zeroBased_seed (s : String) :
    createStateFromLabelTwo s = StateTwo.mk ("0_" ++ s) ("1_" ++ s) := rfl

/-- C10: for every string label `s`, the pair state built by
`createStateFromLabel` on the pair-state System is seeded from exactly the two
derived labels `"0_" ++ s` and `"1_" ++ s`: both per-atom labels have `s` as a
suffix and they differ only in the atom-index part in front of it, `"0_"` for
the first atom and `"1_"` for the second. -/
theorem createStateFromLabelTwo_labels (s : String) :
    (createStateFromLabelTwo s).labelA = "0_" ++ s ∧
    (createStateFromLabelTwo s).labelB = "1_" ++ s ∧
    ∃ pA pB, (createStateFromLabelTwo s).labelA = pA ++ s ∧
      (createStateFromLabelTwo s).labelB = pB ++ s ∧ pA = "0_" ∧ pB = "1_" :=
  ⟨rfl, rfl, "0_", "1_", rfl, rfl, rfl, rfl⟩

/-! ## Matrix Element Cache

Modelled from the spec (§4.2): the implementation of `MatrixElementCache` is
not in the sources, only its callers.  The logical content of the two-tier
(in-memory plus on-disk) store is a single key-to-value map with
insert-if-absent `put` and `get`; we model it as an association list. -/

/-- Modelled from the spec: `get(key) -> Optional<Value>` of the Matrix
Element Cache, a lookup in the key-to-value map. -/
def cacheGet {κ ν : Type} [DecidableEq κ] : List (κ × ν) → κ → Option ν
  | [], _ => none
  | (k₀, v₀) :: rest, k => if k = k₀ then some v₀ else cacheGet rest k

/-- Modelled from the spec: `put(key, value)` of the Matrix Element Cache with
at-most-once semantics per key — attempting to overwrite an existing key is a
no-op, never a silent overwrite. -/
def cachePut {κ ν : Type} [DecidableEq κ] (c : List (κ × ν)) (k : κ) (v : ν) :
    List (κ × ν) :=
  match cacheGet c k with
  | some _ => c
  | none => (k, v) :: c

/-- C3: on the Matrix Element Cache, `put(k, v)` on a cache not yet holding
`k` followed by `get(k)` returns `v`; a second `put` of an equal value on a
key already present is a no-op; and a `put` on an existing key never silently
replaces the stored value. -/
theorem cache_put_get_atMostOnce {κ ν : Type} [DecidableEq κ]
    (c : List (κ × ν)) (k : κ) (v : ν) :
    (cacheGet c k = none → cacheGet (cachePut c k v) k = some v) ∧
    (cacheGet c k = some v → cachePut c k v = c) ∧
    (∀ w, cacheGet c k = some w → cacheGet (cachePut c k v) k = some w) := by
  refine ⟨fun h => ?_, fun h => ?_, fun w h => ?_⟩
  · simp [cachePut, h, cacheGet]
  · simp only [cachePut, h]
  · simp only [cachePut, h]

/-- C3 witness: the at-most-once contract evaluated on a concrete cache over
natural-number keys and values. -/
theorem cache_put_get_atMostOnce_witness :
    cacheGet (cachePut ([] : List (Nat × Nat)) 1 5) 1 = some 5 ∧
    cachePut [(1, 5)] 1 5 = [(1, 5)] ∧
    cacheGet (cachePut [(1, 5)] 1 7) 1 = some 5 :=
  ⟨(cache_put_get_atMostOnce [] 1 5).1 rfl,
    (cache_put_get_atMostOnce [(1, 5)] 1 5).2.1 rfl,
    (cache_put_get_atMostOnce [(1, 5)] 1 7).2.2 5 rfl⟩

/-! ## Operator Assembler and geometry check

Modelled from the spec (§4.4): the `SystemTwo` interaction assembly is not in
the sources, only the notebooks that call `setAngle`, `setDistance`,
`setSurfaceDistance`, `enableGreenTensor` and `buildInteraction`.  The real
(`pireal`) build works with real arithmetic, which we embed in exact rational
arithmetic; matrix entries are carried as complex numbers with rational parts
so that conjugation is a meaningful operation. -/

/-- A complex scalar with exact rational real and imaginary parts, the entry
type of the assembled Operator. -/
structure Cplx where
  re : ℚ
  im : ℚ
deriving DecidableEq

/-- Complex conjugation on matrix entries. -/
def Cplx.conj (z : Cplx) : Cplx :=
  Cplx.mk z.re (-z.im)

/-- The error taxonomy of the spec (§7). -/
inductive PiError
  | invalidStateError
  | geometryError
  | notReadyError
  | convergenceError
  | cacheIOError
deriving DecidableEq

/-- Modelled from the spec: the geometric parameters bound by a pair System —
interatomic distance, orientation angle (carried by its cosine, the only way
it enters the surface bound), surface distance, and the Green's-tensor enable
flag. -/
structure Geometry where
  distance : ℚ
  cosTheta : ℚ
  surfaceDistance : ℚ
  greenTensor : Bool

/-- Modelled from the spec: the interaction-assembly loop.  For every pair of
basis indices `(i, j)` with `i ≤ j` the assembler computes the coupling (via
selection rules, cache fetches and geometric prefactors, abstracted here as
the real-valued function `coupling` on ordered index pairs) and writes the
result into both the `(i, j)` and the `(j, i)` entry; the diagonal holds the
real unperturbed energies `diag`. -/
def assembleInteraction (diag : Nat → ℚ) (coupling : Nat → Nat → ℚ) :
    Nat → Nat → Cplx :=
  fun i j =>
    if i = j then Cplx.mk (diag i) 0
    else if i < j then Cplx.mk (coupling i j) 0
    else Cplx.mk (coupling j i) 0

/-- Modelled from the spec: `buildInteraction`.  When the surface term is
enabled, the surface distance must exceed the geometry-consistency bound
`distance * cosTheta / 2`; otherwise a `GeometryError` is raised before any
matrix assembly proceeds.  On success the assembled interaction matrix is
returned. -/
def buildInteraction (g : Geometry) (diag : Nat → ℚ)
    (coupling : Nat → Nat → ℚ) : Except PiError (Nat → Nat → Cplx) :=
  if g.greenTensor = true ∧ g.surfaceDistance < g.distance * g.cosTheta / 2 then
    Except.error PiError.geometryError
  else
    Except.ok (assembleInteraction diag coupling)

/-- C2: for every geometry and every diagonal/coupling data for which
`buildInteraction` succeeds, the assembled Operator is Hermitian —
`M i j = conj (M j i)` for all indices — and moreover each computed coupling
is written into both the `(i, j)` and the `(j, i)` entry, so the two entries
are equal. -/
theorem buildInteraction_hermitian (g : Geometry) (diag : Nat → ℚ)
    (coupling : Nat → Nat → ℚ) (M : Nat → Nat → Cplx)
    (h : buildInteraction g diag coupling = Except.ok M) (i j : Nat) :
    M i j = Cplx.conj (M j i) ∧ M i j = M j i := by
  have hM : M = assembleInteraction diag coupling := by
    by_cases hc : g.greenTensor = true ∧
        g.surfaceDistance < g.distance * g.cosTheta / 2
    · rw [buildInteraction, if_pos hc] at h
      exact absurd h (by simp)
    · rw [buildInteraction, if_neg hc] at h
      exact (Except.ok.injEq _ _ ▸ h).symm
  subst hM
  rcases Nat.lt_trichotomy i j with hij | hij | hij
  · constructor
    · simp [assembleInteraction, hij, Nat.ne_of_lt hij, Nat.lt_asymm hij,
        (Nat.ne_of_lt hij).symm, Cplx.conj]
    · simp [assembleInteraction, hij, Nat.ne_of_lt hij, Nat.lt_asymm hij,
        (Nat.ne_of_lt hij).symm]
  · subst hij
    simp [assembleInteraction, Cplx.conj]
  · constructor
    · simp [assembleInteraction, hij, Nat.ne_of_lt hij, Nat.lt_asymm hij,
        (Nat.ne_of_lt hij).symm, Cplx.conj]
    · simp [assembleInteraction, hij, Nat.ne_of_lt hij, Nat.lt_asymm hij,
        (Nat.ne_of_lt hij).symm]

/-- A concrete geometry on which `buildInteraction` succeeds. -/
def geomOk : Geometry :=
  Geometry.mk 10 0 1 true

/-- A concrete diagonal for the witness. -/
def diagW : Nat → ℚ :=
  fun i => (i : ℚ)

/-- A concrete coupling function for the witness. -/
def couplingW : Nat → Nat → ℚ :=
  fun i j => (i : ℚ) + 2 * (j : ℚ)

/-- The matrix assembled from the witness data. -/
def matrixW : Nat → Nat → Cplx :=
  assembleInteraction diagW couplingW

/-- C2 witness: on concrete data `buildInteraction` succeeds and the resulting
matrix is Hermitian at the concrete index pair `(0, 1)`. -/
theorem buildInteraction_hermitian_witness :
    buildInteraction geomOk diagW couplingW = Except.ok matrixW ∧
    matrixW 0 1 = Cplx.conj (matrixW 1 0) ∧ matrixW 0 1 = matrixW 1 0 :=
  have hok : buildInteraction geomOk diagW couplingW = Except.ok matrixW := by
    norm_num [buildInteraction, geomOk, matrixW]
  ⟨hok,
    (buildInteraction_hermitian geomOk diagW couplingW matrixW hok 0 1).1,
    (buildInteraction_hermitian geomOk diagW couplingW matrixW hok 0 1).2⟩

/-- C4: for every pair System geometry with the surface term enabled and the
surface distance smaller than `distance * cosTheta / 2`, `buildInteraction`
raises `GeometryError` before any matrix assembly proceeds — the invalid
configuration is never silently clamped into a successful build. -/
theorem buildInteraction_geometryError (g : Geometry) (diag : Nat → ℚ)
    (coupling : Nat → Nat → ℚ) (hg : g.greenTensor = true)
    (hs : g.surfaceDistance < g.distance * g.cosTheta / 2) :
    buildInteraction g diag coupling = Except.error PiError.geometryError := by
  rw [buildInteraction, if_pos ⟨hg, hs⟩]

/-- C4 witness: a concrete invalid geometry (distance 10, cosine 1, surface
distance 1 < 5, surface term enabled) makes `buildInteraction` fail with
`GeometryError`. -/
theorem buildInteraction_geometryError_witness :
    buildInteraction (Geometry.mk 10 1 1 true) diagW couplingW =
      Except.error PiError.geometryError :=
  buildInteraction_geometryError (Geometry.mk 10 1 1 true) diagW couplingW
    rfl (by norm_num)

/-! ## System stage machine

Modelled from the spec (§5, §9): within a single System, operations must be
invoked in the dependency order basis → diagonal → interaction → diagonalize →
overlap; the stages form the explicit state machine {BasisBuilt,
DiagonalBuilt, InteractionBuilt, Diagonalized} suggested in the design notes,
preceded by a freshly created state. -/

/-- Modelled from the spec: the pipeline stage a System has completed. -/
inductive Stage
  | created
  | basisBuilt
  | diagonalBuilt
  | interactionBuilt
  | diagonalized
deriving DecidableEq

/-- Numeric rank of a stage in the dependency order. -/
def Stage.rank : Stage → Nat
  | Stage.created => 0
  | Stage.basisBuilt => 1
  | Stage.diagonalBuilt => 2
  | Stage.interactionBuilt => 3
  | Stage.diagonalized => 4

/-- Modelled from the spec: the mutable per-System state — the completed
stage together with the point-in-time eigen-decomposition data. -/
structure SystemS where
  stage : Stage
  eigenvalues : List ℚ
  overlaps : List ℚ

/-- Modelled from the spec: building the field-free diagonal requires the
basis to have been built. -/
def buildDiagonalStep (s : SystemS) : Except PiError SystemS :=
  if 1 ≤ s.stage.rank then Except.ok { s with stage := Stage.diagonalBuilt }
  else Except.error PiError.notReadyError

/-- Modelled from the spec: building the interaction requires the diagonal
stage to have completed. -/
def buildInteractionStep (s : SystemS) : Except PiError SystemS :=
  if 2 ≤ s.stage.rank then Except.ok { s with stage := Stage.interactionBuilt }
  else Except.error PiError.notReadyError

/-- Modelled from the spec: diagonalization requires the interaction to have
been built. -/
def diagonalizeStep (s : SystemS) : Except PiError SystemS :=
  if 3 ≤ s.stage.rank then Except.ok { s with stage := Stage.diagonalized }
  else Except.error PiError.notReadyError

/-- Modelled from the spec: reading back eigenvalues requires a completed
diagonalization. -/
def getEigenvalues (s : SystemS) : Except PiError (List ℚ) :=
  if 4 ≤ s.stage.rank then Except.ok s.eigenvalues
  else Except.error PiError.notReadyError

/-- Modelled from the spec: overlap queries are a read-side computation over a
completed diagonalization. -/
def getOverlapStep (s : SystemS) : Except PiError (List ℚ) :=
  if 4 ≤ s.stage.rank then Except.ok s.overlaps
  else Except.error PiError.notReadyError

/-- C8: in every System state whose prerequisite stage has not completed, each
operation of the pipeline basis → diagonal → interaction → diagonalize →
overlap fails with `NotReadyError`; in particular requesting eigenvalues
before any build step has run fails with `NotReadyError`. -/
theorem dependency_order_notReady (s : SystemS) :
    (s.stage.rank < 1 → buildDiagonalStep s = Except.error PiError.notReadyError) ∧
    (s.stage.rank < 2 → buildInteractionStep s = Except.error PiError.notReadyError) ∧
    (s.stage.rank < 3 → diagonalizeStep s = Except.error PiError.notReadyError) ∧
    (s.stage.rank < 4 → getEigenvalues s = Except.error PiError.notReadyError) ∧
    (s.stage.rank < 4 → getOverlapStep s = Except.error PiError.notReadyError) := by
  refine ⟨fun h => ?_, fun h => ?_, fun h => ?_, fun h => ?_, fun h => ?_⟩
  · rw [buildDiagonalStep, if_neg (by omega)]
  · rw [buildInteractionStep, if_neg (by omega)]
  · rw [diagonalizeStep, if_neg (by omega)]
  · rw [getEigenvalues, if_neg (by omega)]
  · rw [getOverlapStep, if_neg (by omega)]

/-- A freshly created System, before any build step. -/
def freshSystem : SystemS :=
  SystemS.mk Stage.created [] []

/-- C8 witness: on a freshly created System every pipeline operation,
including requesting eigenvalues, fails with `NotReadyError`. -/
theorem dependency_order_notReady_witness :
    getEigenvalues freshSystem = Except.error PiError.notReadyError ∧
    diagonalizeStep freshSystem = Except.error PiError.notReadyError ∧
    buildInteractionStep freshSystem = Except.error PiError.notReadyError ∧
    getOverlapStep freshSystem = Except.error PiError.notReadyError :=
  ⟨(dependency_order_notReady freshSystem).2.2.2.1 (by decide),
    (dependency_order_notReady freshSystem).2.2.1 (by decide),
    (dependency_order_notReady freshSystem).2.1 (by decide),
    (dependency_order_notReady freshSystem).2.2.2.2 (by decide)⟩

/-! ## Diagonalizer

Modelled from the spec (§4.5): `diagonalize(operator, tolerance)` reduces an
assembled Hermitian operator to eigenvalues and eigenvectors.  The numeric
eigensolver kernel (dense full solver or iterative sparse solver) is an
external collaborator; it is abstracted as a function that, given the operator
and the tolerance bounding the acceptable residual, either converges —
yielding raw eigenpairs whose eigenvectors are coefficient functions over
basis indices — or fails to converge within its bounded restarts.
`diagonalize` reports non-convergence as a `ConvergenceError`, never as a
partial result; on success it returns the eigenpairs sorted by eigenvalue
ascending, each eigenvector materialized as its coefficient list over the
basis in the basis's index ordering `0..dim-1`. -/

/-- An assembled Operator over a basis: its dimension (the basis cardinality)
and its matrix of entries, as produced by the Operator Assembler. -/
structure Operator where
  dim : Nat
  entry : Nat → Nat → Cplx

/-- Modelled from the spec: the external numeric eigensolver kernel.  For an
operator and a tolerance it returns raw eigenpairs — each an eigenvalue
together with the eigenvector's coefficient function over basis indices — or
`none` when it fails to converge within the bounded number of restarts. -/
def SolverKernel : Type :=
  Operator → ℚ → Option (List (ℚ × (Nat → ℚ)))

instance : DecidableRel (fun (p q : ℚ × List ℚ) => p.1 ≤ q.1) :=
  fun p q => inferInstanceAs (Decidable (p.1 ≤ q.1))

instance : IsTotal (ℚ × List ℚ) (fun p q => p.1 ≤ q.1) :=
  ⟨fun a b => le_total a.1 b.1⟩

instance : IsTrans (ℚ × List ℚ) (fun p q => p.1 ≤ q.1) :=
  ⟨fun _ _ _ h₁ h₂ => le_trans h₁ h₂⟩

/-- Modelled from the spec: `diagonalize(operator, tolerance)`.  Runs the
eigensolver kernel at the given tolerance; non-convergence is reported as a
`ConvergenceError`.  On success every raw eigenvector is written out as its
coefficient list over the basis indices `0..dim-1` in order, and the
eigenpairs are sorted by eigenvalue ascending. -/
def diagonalize (kernel : SolverKernel) (op : Operator) (tolerance : ℚ) :
    Except PiError (List (ℚ × List ℚ)) :=
  match kernel op tolerance with
  | none => Except.error PiError.convergenceError
  | some raw =>
      Except.ok (List.insertionSort (fun p q => p.1 ≤ q.1)
        (raw.map (fun p => (p.1, (List.range op.dim).map p.2))))

/-- C6: for every assembled Operator, every tolerance and every solver run on
which `diagonalize` succeeds, the returned sequence of eigenvalues is sorted
in ascending order, and each returned eigenvector is expressed as coefficients
over the Basis in the Basis's index ordering: it is one of the kernel's
eigenvectors written out with exactly one coefficient per basis index, the
`k`-th list entry being the coefficient of basis state `k`. -/
theorem diagonalize_sorted_basis_ordering (kernel : SolverKernel)
    (op : Operator) (tolerance : ℚ) (res : List (ℚ × List ℚ))
    (h : diagonalize kernel op tolerance = Except.ok res) :
    List.Sorted (· ≤ ·) (res.map Prod.fst) ∧
    ∀ p ∈ res, p.2.length = op.dim ∧
      ∃ raw v, kernel op tolerance = some raw ∧ (p.1, v) ∈ raw ∧
        p.2 = (List.range op.dim).map v ∧
        ∀ k, k < op.dim → p.2.getD k 0 = v k := by
  cases hk : kernel op tolerance with
  | none =>
      unfold diagonalize at h
      rw [hk] at h
      exact absurd h (by simp)
  | some raw =>
      unfold diagonalize at h
      rw [hk] at h
      simp only [Except.ok.injEq] at h
      subst h
      constructor
      · exact List.pairwise_map.2 (List.sorted_insertionSort _ _)
      · intro p hp
        rw [List.mem_insertionSort] at hp
        obtain ⟨⟨lam, v⟩, hmem, rfl⟩ := List.mem_map.1 hp
        refine ⟨by simp, raw, v, rfl, hmem, rfl, fun k hk2 => ?_⟩
        simp [List.getD_eq_getElem?_getD, List.getElem?_map,
          List.getElem?_range hk2]

/-- A concrete two-state operator for the witness. -/
def operatorW : Operator :=
  Operator.mk 2 (fun i j => Cplx.mk ((i : ℚ) + (j : ℚ)) 0)

/-- A concrete converging solver-kernel run for the witness, returning two raw
eigenpairs out of order. -/
def kernelW : SolverKernel :=
  fun _ _ => some [(2, fun k => if k = 0 then 1 else 0),
    (1, fun k => if k = 1 then 1 else 0)]

/-- The eigenpair list `diagonalize` returns for the witness data. -/
def resW : List (ℚ × List ℚ) :=
  [(1, [0, 1]), (2, [1, 0])]

/-- C6 witness: on the concrete operator, tolerance and converging kernel run,
`diagonalize` succeeds with the eigenpairs sorted ascending. -/
theorem diagonalize_sorted_basis_ordering_witness :
    diagonalize kernelW operatorW (1 / 100) = Except.ok resW ∧
    List.Sorted (· ≤ ·) (resW.map Prod.fst) :=
  have hok : diagonalize kernelW operatorW (1 / 100) = Except.ok resW := by
    rfl
  ⟨hok,
    (diagonalize_sorted_basis_ordering kernelW operatorW (1 / 100) resW
      hok).1⟩

/-! ## Rotation/Overlap Module

Modelled from the spec (§4.6): `getOverlap` takes zyz Euler angles describing
a rotation of the coordinate frame; since the frame is rotated rather than the
states, the reference state is internally rotated by the negated angles — the
inverse of the frame rotation.  Angles are embedded exactly by their cosine
and sine (a point on the unit circle), so negating an angle keeps the cosine
and negates the sine, and rotations act on rational coordinate vectors. -/

/-- Rotation about the z-axis by the angle with cosine `c` and sine `s`. -/
def rotZ (c s : ℚ) (v : ℚ × ℚ × ℚ) : ℚ × ℚ × ℚ :=
  (c * v.1 - s * v.2.1, s * v.1 + c * v.2.1, v.2.2)

/-- Rotation about the y-axis by the angle with cosine `c` and sine `s`. -/
def rotY (c s : ℚ) (v : ℚ × ℚ × ℚ) : ℚ × ℚ × ℚ :=
  (c * v.1 + s * v.2.2, v.2.1, -(s * v.1) + c * v.2.2)

/-- Modelled from the spec: the zyz coordinate-frame rotation determined by
the Euler angle triple `(alpha, beta, gamma)`, each angle given by its cosine
and sine. -/
def frameRotation (ca sa cb sb cg sg : ℚ) (v : ℚ × ℚ × ℚ) : ℚ × ℚ × ℚ :=
  rotZ ca sa (rotY cb sb (rotZ cg sg v))

/-- Modelled from the spec: the rotation `getOverlap` applies internally to
the reference state — the zyz rotation with the angles negated and reversed,
i.e. cosines kept and sines negated. -/
def rotatedReference (ca sa cb sb cg sg : ℚ) (v : ℚ × ℚ × ℚ) : ℚ × ℚ × ℚ :=
  rotZ cg (-sg) (rotY cb (-sb) (rotZ ca (-sa) v))

/-- Scalar product of coordinate vectors. -/
def dot3 (u v : ℚ × ℚ × ℚ) : ℚ :=
  u.1 * v.1 + u.2.1 * v.2.1 + u.2.2 * v.2.2

/-- Overlap weight of a (real) reference vector against an eigenvector. -/
def overlapWeight (u v : ℚ × ℚ × ℚ) : ℚ :=
  (dot3 u v) ^ 2

/-- Modelled from the spec: `getOverlap(referenceState, eulerAngles)` — the
reference state is rotated with the negated angles and the squared scalar
product against the eigenvector is returned. -/
def getOverlap (ca sa cb sb cg sg : ℚ) (ref eig : ℚ × ℚ × ℚ) : ℚ :=
  overlapWeight (rotatedReference ca sa cb sb cg sg ref) eig

/-- Composing `rotZ` with the same-angle negated-sine `rotZ` is the identity
on the unit circle. -/
theorem rotZ_negSin_cancel (c s : ℚ) (h : c ^ 2 + s ^ 2 = 1)
    (v : ℚ × ℚ × ℚ) : rotZ c s (rotZ c (-s) v) = v := by
  obtain ⟨x, y, z⟩ := v
  simp only [rotZ, Prod.mk.injEq]
  refine ⟨?_, ?_, trivial⟩
  · linear_combination x * h
  · linear_combination y * h

/-- Composing `rotY` with the same-angle negated-sine `rotY` is the identity
on the unit circle. -/
theorem rotY_negSin_cancel (c s : ℚ) (h : c ^ 2 + s ^ 2 = 1)
    (v : ℚ × ℚ × ℚ) : rotY c s (rotY c (-s) v) = v := by
  obtain ⟨x, y, z⟩ := v
  simp only [rotY, Prod.mk.injEq]
  refine ⟨?_, trivial, ?_⟩
  · linear_combination x * h
  · linear_combination z * h

/-- C7: for every reference state and every zyz Euler-angle triple (each angle
a point on the unit circle), `getOverlap` computes the overlap from the
reference state rotated with the negated angles, and that internal rotation is
the inverse of the coordinate-frame rotation given by the angles: applying the
frame rotation to the internally rotated reference restores the reference. -/
theorem getOverlap_negated_angle (ca sa cb sb cg sg : ℚ)
    (ha : ca ^ 2 + sa ^ 2 = 1) (hb : cb ^ 2 + sb ^ 2 = 1)
    (hg : cg ^ 2 + sg ^ 2 = 1) (ref eig : ℚ × ℚ × ℚ) :
    getOverlap ca sa cb sb cg sg ref eig =
      overlapWeight (rotatedReference ca sa cb sb cg sg ref) eig ∧
    frameRotation ca sa cb sb cg sg
      (rotatedReference ca sa cb sb cg sg ref) = ref := by
  refine ⟨rfl, ?_⟩
  rw [frameRotation, rotatedReference, rotZ_negSin_cancel cg sg hg,
    rotY_negSin_cancel cb sb hb, rotZ_negSin_cancel ca sa ha]

/-- C7 witness: at the concrete frame rotation by the angle with cosine `3/5`
and sine `4/5` about the y-axis, `getOverlap` of the reference `(1, 2, 3)` is
the overlap of the internally rotated reference, and the frame rotation maps
that rotated reference back to `(1, 2, 3)`. -/
theorem getOverlap_negated_angle_witness :
    getOverlap 1 0 (3 / 5) (4 / 5) 1 0 (1, 2, 3) (0, 1, 0) =
      overlapWeight (rotatedReference 1 0 (3 / 5) (4 / 5) 1 0 (1, 2, 3)) (0, 1, 0) ∧
    frameRotation 1 0 (3 / 5) (4 / 5) 1 0
      (rotatedReference 1 0 (3 / 5) (4 / 5) 1 0 (1, 2, 3)) = (1, 2, 3) :=
  getOverlap_negated_angle 1 0 (3 / 5) (4 / 5) 1 0 (by norm_num) (by norm_num)
    (by norm_num) (1, 2, 3) (0, 1, 0)

/-! ## Basis Builder

Modelled from the spec (§4.3): `SystemOne`'s `restrictEnergy` / `restrictN` /
`restrictL` / `restrictJ` / `restrictM` and the basis enumeration are not in
the sources, only the notebooks that call them.  States carry the quantum
numbers (n, l, j, m); the half-integers j and m are embedded exactly as their
doubled integer values.  Enumeration is bounded by the mandatory n and l
windows (with l < n), j runs over l ± 1/2, m over -j..j; the cheap
integer-window filters are applied before the costlier energy filter, and the
active predicates compose conjunctively.  The unperturbed energy comes from
the external atomic-data provider, abstracted as a function on states. -/

/-- Modelled from the spec: a single-atom basis state with principal quantum
number `n`, orbital angular momentum `l`, and doubled total and magnetic
quantum numbers `j2 = 2j`, `m2 = 2m`. -/
structure BasisState where
  n : Nat
  l : Nat
  j2 : ℤ
  m2 : ℤ
deriving DecidableEq

/-- Modelled from the spec: the active restriction windows of a System —
mandatory n and l windows, optional j, m (doubled) and energy windows. -/
structure Restrictions where
  nMin : Nat
  nMax : Nat
  lMin : Nat
  lMax : Nat
  jWin : Option (ℤ × ℤ)
  mWin : Option (ℤ × ℤ)
  eWin : Option (ℚ × ℚ)

/-- The inclusive integer range `a..b` as a list. -/
def rangeList (a b : Nat) : List Nat :=
  (List.range (b + 1 - a)).map (fun k => a + k)

/-- Membership in the inclusive range. -/
theorem mem_rangeList {a b x : Nat} : x ∈ rangeList a b ↔ a ≤ x ∧ x ≤ b := by
  constructor
  · intro hx
    simp only [rangeList, List.mem_map, List.mem_range] at hx
    obtain ⟨k, hk, rfl⟩ := hx
    omega
  · intro hx
    simp only [rangeList, List.mem_map, List.mem_range]
    exact ⟨x - a, by omega, by omega⟩

/-- The doubled total angular momenta available at orbital momentum `l`:
`l ± 1/2`, only `1/2` when `l = 0`. -/
def enumJ2 (l : Nat) : List ℤ :=
  if l = 0 then [1] else [2 * (l : ℤ) - 1, 2 * (l : ℤ) + 1]

/-- The doubled magnetic quantum numbers `-j..j` in steps of one. -/
def enumM2 (j2 : ℤ) : List ℤ :=
  (List.range (j2.toNat + 1)).map (fun k => j2 - 2 * (k : ℤ))

/-- Modelled from the spec: the bounded candidate enumeration over the n/l/j/m
range implied by the restrictions (l additionally bounded by l < n). -/
def enumerateStates (r : Restrictions) : List BasisState :=
  (rangeList r.nMin r.nMax).flatMap (fun n =>
    (rangeList r.lMin (min r.lMax (n - 1))).flatMap (fun l =>
      (enumJ2 l).flatMap (fun j2 =>
        (enumM2 j2).map (fun m2 => BasisState.mk n l j2 m2))))

/-- The n-window predicate. -/
def inNWindow (r : Restrictions) (s : BasisState) : Bool :=
  decide (r.nMin ≤ s.n) && decide (s.n ≤ r.nMax)

/-- The l-window predicate. -/
def inLWindow (r : Restrictions) (s : BasisState) : Bool :=
  decide (r.lMin ≤ s.l) && decide (s.l ≤ r.lMax)

/-- The optional j-window predicate (inactive when unset). -/
def inJWindow (r : Restrictions) (s : BasisState) : Bool :=
  match r.jWin with
  | none => true
  | some (a, b) => decide (a ≤ s.j2) && decide (s.j2 ≤ b)

/-- The optional m-window predicate (inactive when unset). -/
def inMWindow (r : Restrictions) (s : BasisState) : Bool :=
  match r.mWin with
  | none => true
  | some (a, b) => decide (a ≤ s.m2) && decide (s.m2 ≤ b)

/-- The optional energy-window predicate (inactive when unset). -/
def inEWindow (energy : BasisState → ℚ) (r : Restrictions) (s : BasisState) :
    Bool :=
  match r.eWin with
  | none => true
  | some (a, b) => decide (a ≤ energy s) && decide (energy s ≤ b)

/-- The conjunction of every active restriction predicate. -/
def satisfiesAll (energy : BasisState → ℚ) (r : Restrictions)
    (s : BasisState) : Bool :=
  inNWindow r s && inLWindow r s && inJWindow r s && inMWindow r s &&
    inEWindow energy r s

/-- Modelled from the spec: `buildSingleAtomBasis` — enumerate the candidates
within the n/l windows, apply the cheap integer-window filters for j and m,
then the energy filter, and deduplicate, yielding the ordered basis. -/
def buildSingleAtomBasis (energy : BasisState → ℚ) (r : Restrictions) :
    List BasisState :=
  ((((enumerateStates r).filter (fun s => inJWindow r s && inMWindow r s)).filter
    (fun s => inEWindow energy r s)).dedup)

/-- Every enumerated candidate lies inside the n and l windows. -/
theorem mem_enumerateStates_windows {r : Restrictions} {s : BasisState}
    (hs : s ∈ enumerateStates r) :
    inNWindow r s = true ∧ inLWindow r s = true := by
  simp only [enumerateStates, List.mem_flatMap, List.mem_map] at hs
  obtain ⟨n, hn, l, hl, j2, hj2, m2, hm2, rfl⟩ := hs
  rw [mem_rangeList] at hn hl
  simp only [inNWindow, inLWindow, Bool.and_eq_true, decide_eq_true_eq]
  exact ⟨⟨hn.1, hn.2⟩, ⟨hl.1, le_trans hl.2 (min_le_left _ _)⟩⟩

/-- C5: for every set of active restriction windows (energy, n, l, j, m,
composed conjunctively), every state in the basis returned by the Basis
Builder satisfies every active predicate (soundness), and no candidate state
within the enumerated n/l/j/m range that satisfies all active predicates is
missing from the basis (completeness). -/
theorem buildSingleAtomBasis_sound_complete (energy : BasisState → ℚ)
    (r : Restrictions) (s : BasisState) :
    (s ∈ buildSingleAtomBasis energy r → satisfiesAll energy r s = true) ∧
    (s ∈ enumerateStates r → satisfiesAll energy r s = true →
      s ∈ buildSingleAtomBasis energy r) := by
  constructor
  · intro hs
    rw [buildSingleAtomBasis, List.mem_dedup, List.mem_filter] at hs
    obtain ⟨hs1, he⟩ := hs
    rw [List.mem_filter, Bool.and_eq_true] at hs1
    obtain ⟨henum, hj, hm⟩ := hs1
    have hnl := mem_enumerateStates_windows henum
    simp only [satisfiesAll, Bool.and_eq_true]
    exact ⟨⟨⟨⟨hnl.1, hnl.2⟩, hj⟩, hm⟩, he⟩
  · intro henum hsat
    simp only [satisfiesAll, Bool.and_eq_true] at hsat
    obtain ⟨⟨⟨⟨_, _⟩, hj⟩, hm⟩, he⟩ := hsat
    rw [buildSingleAtomBasis, List.mem_dedup, List.mem_filter]
    refine ⟨?_, he⟩
    rw [List.mem_filter, Bool.and_eq_true]
    exact ⟨henum, hj, hm⟩

/-- A concrete energy function for the witness, the Rydberg-like
`-1 / n^2`. -/
def energyW (s : BasisState) : ℚ :=
  -1 / ((s.n : ℚ) ^ 2)

/-- Concrete restriction windows for the witness. -/
def restrictionsW : Restrictions :=
  Restrictions.mk 68 70 0 2 (some (1, 3)) (some (-1, 1))
    (some (-1 / 4624, -1 / 4900))

/-- The concrete candidate state of the witness. -/
def stateW : BasisState :=
  BasisState.mk 69 0 1 1

/-- C5 witness: the concrete state (n 69, l 0, j 1/2, m 1/2) is enumerated,
satisfies all active windows, is hence in the built basis, and soundness read
back on that membership recovers the predicates. -/
theorem buildSingleAtomBasis_sound_complete_witness :
    stateW ∈ buildSingleAtomBasis energyW restrictionsW ∧
    satisfiesAll energyW restrictionsW stateW = true :=
  have hmem : stateW ∈ buildSingleAtomBasis energyW restrictionsW :=
    (buildSingleAtomBasis_sound_complete energyW restrictionsW stateW).2
      (by decide)
      (by norm_num [satisfiesAll, inNWindow, inLWindow, inJWindow, inMWindow,
        inEWindow, energyW, restrictionsW, stateW])
  ⟨hmem,
    (buildSingleAtomBasis_sound_complete energyW restrictionsW stateW).1 hmem⟩
